import Mathlib

/-!
Shallow embedding of the degradation-aware batch rewrite engine of the
ResuForge backend (`backend/utils/timeout_utils.py`,
`backend/utils/partial_failure.py`, `backend/utils/smart_fallback.py`,
`backend/agents/layout_engine.py`, `backend/agents/rewrite_agent.py`,
`backend/main.py`), together with theorems settling the specification
claims about it.

Python strings are modelled as Lean `String` (in this toolchain a wrapper
around `List Char`, so `String.length` counts code points exactly like
Python `len`).  Python exceptions are modelled with `Except`, carrying the
exception message (`str(e)`) as a `String`.  Functions are translated
clause by clause from the Python source; every definition keeps the
source name where possible.
-/

namespace ResuForge

/-! ## Python string primitives

Helpers mirroring the Python `str` methods used by the source.  All of
them operate on the underlying character list, which keeps proofs free of
`String` internals.  They cover the ASCII behaviour of the corresponding
Python methods (all the whitespace/lowercase/uppercase tests in the
source operate on ASCII resume text). -/

/-- Model of Python `s.strip()`: drop whitespace from both ends. -/
def pystrip (s : String) : String :=
  String.mk (((s.data.dropWhile Char.isWhitespace).reverse.dropWhile Char.isWhitespace).reverse)

/-- Model of Python `s.rstrip('.')`: drop trailing `'.'` characters. -/
def py_rstrip_dot (s : String) : String :=
  String.mk ((s.data.reverse.dropWhile (fun c => c == '.')).reverse)

/-- Model of Python `s[:n]` for `n ≥ 0`. -/
def py_take (s : String) (n : Nat) : String :=
  String.mk (s.data.take n)

/-- Model of Python `s.rsplit(' ', 1)[0]`: everything before the last
space character, or the whole string when it contains no space. -/
def py_rsplit_head (s : String) : String :=
  if s.data.contains ' ' then
    String.mk (((s.data.reverse.dropWhile (fun c => ¬ (c == ' '))).drop 1).reverse)
  else s

/-- Worker for Python `s.split()` (split on whitespace runs, no empty
tokens); `cur` is the current token accumulated in reverse. -/
def py_words_go : List Char → List Char → List String
  | [], cur => if cur = [] then [] else [String.mk cur.reverse]
  | c :: rest, cur =>
    if c.isWhitespace then
      if cur = [] then py_words_go rest []
      else String.mk cur.reverse :: py_words_go rest []
    else py_words_go rest (c :: cur)

/-- Model of Python `s.split()`. -/
def py_split_ws (s : String) : List String :=
  py_words_go s.data []

/-- Model of Python `s.lower()` (ASCII): lowercase each character. -/
def py_lower (s : String) : String :=
  String.mk (s.data.map Char.toLower)

/-- Model of Python `sep.join(parts)`. -/
def py_join (sep : String) : List String → String
  | [] => ""
  | [x] => x
  | x :: y :: rest => x ++ sep ++ py_join sep (y :: rest)

/-! ## ConstraintValidator — `LayoutEngine.validate_constraints`
(`backend/agents/layout_engine.py`, lines 39-73)

The Python method computes `is_valid = len(new_text) <= max_chars`, logs,
and returns `is_valid`; the `original_text` argument is only used for
logging.  It reads no instance state, so it is a pure function here. -/

/-- Translation of `LayoutEngine.validate_constraints`. -/
def validate_constraints (original_text new_text : String) (max_chars : Nat) : Bool :=
  decide (new_text.length ≤ max_chars)

/-! ## TransformInvoker retry wrapper — `with_retry`
(`backend/utils/timeout_utils.py`, lines 77-119, expanding the `timeout`
decorator it applies per attempt, lines 22-56)

The wrapped function may be stateful, so it is modelled as a sequence of
call outcomes `f 1, f 2, …` (the outcome of its n-th invocation): a
value, the module's `TimeoutError` (which is what the `SIGALRM` handler
raises into the call), an `AttributeError`, or any other exception.  The
embedding follows the Unix path, where the `signal` calls themselves
succeed: the decorator's `except AttributeError` branch (commented
"Windows doesn't support SIGALRM") is then reached exactly when the
wrapped function itself raises `AttributeError`. -/

/-- Exceptions distinguished by `with_retry` and the `timeout` decorator:
the module's own `TimeoutError`, `AttributeError` (caught by the
decorator's platform fallback), and every other exception class. -/
inductive PyExc where
  | timeoutErr : String → PyExc
  | attributeErr : String → PyExc
  | otherErr : String → PyExc
  deriving DecidableEq, Repr

/-- One attempt, i.e. one run of `timed_call()` (`timeout_utils.py`
lines 99-103): the decorated function runs under the alarm; if that call
raises `AttributeError`, the decorator's `except AttributeError` handler
swallows it and immediately re-invokes the function once, with no alarm
set, and the second call's value or exception stands for the attempt.
Returns the attempt's outcome and the number of calls consumed. -/
def timed_call {α : Type} (f : Nat → Except PyExc α) (call_idx : Nat) :
    Except PyExc α × Nat :=
  match f call_idx with
  | .error (PyExc.attributeErr _) => (f (call_idx + 1), 2)
  | outcome => (outcome, 1)

/-- Loop of `with_retry` over `for attempt in range(1, max_attempts + 1)`:
structural recursion on the remaining attempts, tracking the index of the
next call of the wrapped function.  A value returns; the module's
`TimeoutError` is recorded in `last_error` and the next attempt runs; any
other exception surfacing from the attempt re-raises at once.  When the
attempts are exhausted, `raise last_error` (an `Option`, since Python
initialises it to `None`). -/
def with_retry_go {α : Type} (f : Nat → Except PyExc α) :
    Nat → Nat → Option PyExc → Except (Option PyExc) α
  | 0, _, last_error => .error last_error
  | remaining + 1, call_idx, last_error =>
    match timed_call f call_idx with
    | (.ok v, _) => .ok v
    | (.error (PyExc.timeoutErr m), used) =>
      with_retry_go f remaining (call_idx + used) (some (PyExc.timeoutErr m))
    | (.error e, _) => .error (some e)

/-- Translation of `with_retry(max_attempts, ...)` applied to a function
whose n-th call yields outcome `f n`. -/
def with_retry {α : Type} (max_attempts : Nat) (f : Nat → Except PyExc α) :
    Except (Option PyExc) α :=
  with_retry_go f max_attempts 1 none

/-! ## BatchCoordinator — `PartialFailureHandler`
(`backend/utils/partial_failure.py`, lines 15-127)

`processor` and `fallback` may raise (modelled as `Except String`, the
`String` being `str(e)`).  `OperationResult.data` is `Any` in Python: it
holds a processor/fallback output on the two success paths and the
original item on the failure path, hence a sum type here. -/

/-- Translation of the `OperationResult` dataclass. -/
structure OperationResult (α β : Type) where
  success : Bool
  data : β ⊕ α
  error : Option String
  index : Option Nat
  deriving DecidableEq, Repr

/-- Loop of `PartialFailureHandler.process_batch` over `enumerate(items)`
starting at index `i`.  On a processor exception: re-raise when
`fail_fast`; otherwise try the fallback (success keeps the item marked
successful but records the error text); otherwise record a failure
carrying the original item. -/
def process_batch_go {α β : Type} (fail_fast : Bool) (processor : α → Except String β)
    (fallback : Option (α → Except String β)) :
    List α → Nat → Except String (List (OperationResult α β))
  | [], _ => .ok []
  | item :: rest, i =>
    match processor item with
    | .ok d =>
      (process_batch_go fail_fast processor fallback rest (i + 1)).map
        (fun rs => { success := true, data := Sum.inl d, error := none, index := some i } :: rs)
    | .error e =>
      if fail_fast then .error e
      else
        match fallback with
        | some fb =>
          match fb item with
          | .ok d =>
            (process_batch_go fail_fast processor fallback rest (i + 1)).map
              (fun rs =>
                { success := true, data := Sum.inl d,
                  error := some ("Used fallback after error: " ++ e), index := some i } :: rs)
          | .error _ =>
            (process_batch_go fail_fast processor fallback rest (i + 1)).map
              (fun rs =>
                { success := false, data := Sum.inr item, error := some e, index := some i } :: rs)
        | none =>
          (process_batch_go fail_fast processor fallback rest (i + 1)).map
            (fun rs =>
              { success := false, data := Sum.inr item, error := some e, index := some i } :: rs)

/-- Translation of `PartialFailureHandler.process_batch` (the `fail_fast`
flag is the handler's constructor argument). -/
def process_batch {α β : Type} (fail_fast : Bool) (items : List α)
    (processor : α → Except String β) (fallback : Option (α → Except String β)) :
    Except String (List (OperationResult α β)) :=
  process_batch_go fail_fast processor fallback items 0

/-- Translation of the dictionary returned by
`PartialFailureHandler.get_summary`.  Python's float division
`successful / total` is modelled exactly in `ℚ`. -/
structure BatchSummary where
  total : Nat
  successful : Nat
  failed : Nat
  success_rate : ℚ
  errors : List (Option String)
  deriving DecidableEq, Repr

/-- Translation of `PartialFailureHandler.get_summary`. -/
def get_summary {α β : Type} (results : List (OperationResult α β)) : BatchSummary :=
  let total := results.length
  let successful := (results.filter (fun r => r.success)).length
  { total := total
    successful := successful
    failed := total - successful
    success_rate := if total > 0 then (successful : ℚ) / (total : ℚ) else 0
    errors := (results.filter (fun r => !r.success)).map (fun r => r.error) }

/-- Derived predicate: the code marks an item's result successful exactly
when the processor succeeds or, failing that, the fallback succeeds. -/
def item_marked_success {α β : Type} (processor : α → Except String β)
    (fallback : Option (α → Except String β)) (item : α) : Bool :=
  match processor item with
  | .ok _ => true
  | .error _ =>
    match fallback with
    | some fb => (fb item).isOk
    | none => false

/-- Derived map: the error entry the code records for an item in the
summary's error list — present only when the processor fails and the
fallback (if any) also fails, and then equal to `some (str e)` for the
processor's exception `e`. -/
def item_error_entry {α β : Type} (processor : α → Except String β)
    (fallback : Option (α → Except String β)) (item : α) : Option (Option String) :=
  match processor item with
  | .ok _ => none
  | .error e =>
    match fallback with
    | some fb =>
      match fb item with
      | .ok _ => none
      | .error _ => some (some e)
    | none => some (some e)

/-! ## TransformInvoker — `RewriteAgent.rewrite_bullet`
(`backend/agents/rewrite_agent.py`, lines 40-117)

The external capability (`ollama.chat`) is modelled by its outcome
`chat_response`: on success, the value is the response's message content;
an exception is an error message.  The method strips the content, logs a
warning when the result is longer than `max_length` (no behavioural
effect), and returns it; on any exception it returns the original text.
`keywords`, `max_length` and `style` only shape the prompt and the logs. -/

/-- Translation of `RewriteAgent.rewrite_bullet`. -/
def rewrite_bullet (bullet_text : String) (_keywords : List String) (_max_length : Nat)
    (chat_response : Except String String) : String :=
  match chat_response with
  | .ok content => pystrip content
  | .error _ => bullet_text

/-! ## Final acceptance gate — `optimize_bullets`
(`backend/main.py`, lines 154-172)

After `batch_rewrite` produces the candidate list, the endpoint loops
over it: the per-item budget is `constraints[idx].get("max_chars", 200)`
when `idx < len(constraints)` and `200` otherwise (each constraint dict
is modelled as `Option Nat`, `none` meaning the key is absent); the
original is `bullets[idx]` when in range and `""` otherwise; the
candidate is validated with `LayoutEngine.validate_constraints` and is
replaced by the original when invalid. -/

/-- Per-item budget computed by the `optimize_bullets` loop. -/
def constraint_max_chars (constraints : List (Option Nat)) (idx : Nat) : Nat :=
  match constraints.get? idx with
  | some d => d.getD 200
  | none => 200

/-- Per-item original text as read by the `optimize_bullets` loop. -/
def original_at (bullets : List String) (idx : Nat) : String :=
  (bullets.get? idx).getD ""

/-- Validation loop of `optimize_bullets`, producing
(`validated_bullets`, `validations`). -/
def optimize_validate_go (bullets : List String) (constraints : List (Option Nat)) :
    List String → Nat → List String × List Bool
  | [], _ => ([], [])
  | new_text :: rest, idx =>
    let max_chars := constraint_max_chars constraints idx
    let original := original_at bullets idx
    let is_valid := validate_constraints original new_text max_chars
    let tail := optimize_validate_go bullets constraints rest (idx + 1)
    ((if is_valid then new_text else original) :: tail.1, is_valid :: tail.2)

/-- Translation of the validation/acceptance part of `optimize_bullets`,
applied to the candidate list `rewritten` returned by `batch_rewrite`. -/
def optimize_bullets_validate (bullets : List String) (constraints : List (Option Nat))
    (rewritten : List String) : List String × List Bool :=
  optimize_validate_go bullets constraints rewritten 0

/-! ## FallbackCascade — `smart_fallback`
(`backend/utils/smart_fallback.py`)

The regular expression of `extract_keywords_from_bullet`,

`r'\b[A-Z][a-za-z]*\b|\b[a-z]+(?:[A-Z][a-z]+)+\b'`

(note the class `[a-za-z]`, which is just `[a-z]`), is embedded as a
direct scanner.  Both alternatives start with `\b` followed by a letter,
so a match can only begin where the previous character is a non-word
character (or at the start).  Greedy backtracking is provably vacuous
for this pattern: every shortened `[a-z]*`/`[a-z]+` run or dropped
`(?:[A-Z][a-z]+)` block leaves the following character a word character,
so the trailing `\b` can only hold after the maximal runs; the scanner
therefore takes the maximal runs and checks the boundary once. -/

/-- Python `\w` (ASCII): letter, digit, or underscore. -/
def is_word_char (c : Char) : Bool :=
  c.isAlpha || c.isDigit || c == '_'

/-- Maximal lowercase run at the front: `([a-z]*` greedy, rest). -/
def lower_run : List Char → List Char × List Char
  | [] => ([], [])
  | c :: rest =>
    if c.isLower then
      let p := lower_run rest
      (c :: p.1, p.2)
    else ([], c :: rest)

/-- Match `[A-Z][a-za-z]*\b` at the current position (the leading `\b` is
checked by the caller).  Returns the matched characters and the rest. -/
def match_cap : List Char → Option (List Char × List Char)
  | [] => none
  | c :: rest =>
    if c.isUpper then
      let p := lower_run rest
      match p.2 with
      | [] => some (c :: p.1, [])
      | d :: _ => if is_word_char d then none else some (c :: p.1, p.2)
    else none

/-- Match `(?:[A-Z][a-z]+)+` greedily: one or more blocks of an uppercase
letter followed by a nonempty lowercase run.  Returns the consumed
characters and the rest; `none` when no block matches.  Structural
recursion on a fuel counter: every recursive step consumes at least two
characters, so fuel equal to the input length (supplied by
`camel_blocks`) never runs out and the 0-fuel branch is unreachable. -/
def camel_blocks_fuel : Nat → List Char → Option (List Char × List Char)
  | 0, _ => none
  | _ + 1, [] => none
  | _ + 1, [_] => none
  | fuel + 1, u :: c2 :: rest =>
    if u.isUpper && c2.isLower then
      let p := lower_run (c2 :: rest)
      match camel_blocks_fuel fuel p.2 with
      | some (more, fin) => some ((u :: p.1) ++ more, fin)
      | none => some (u :: p.1, p.2)
    else none

/-- Match `(?:[A-Z][a-z]+)+` greedily at the current position. -/
def camel_blocks (cs : List Char) : Option (List Char × List Char) :=
  camel_blocks_fuel cs.length cs

/-- Match `[a-z]+(?:[A-Z][a-z]+)+\b` at the current position (leading
`\b` checked by the caller). -/
def match_camel (cs : List Char) : Option (List Char × List Char) :=
  let r1 := lower_run cs
  if r1.1 = [] then none
  else
    match camel_blocks r1.2 with
    | none => none
    | some (blocks, rest2) =>
      match rest2 with
      | [] => some (r1.1 ++ blocks, [])
      | d :: _ => if is_word_char d then none else some (r1.1 ++ blocks, rest2)

/-- Scanner for `re.findall` over the alternation: at each position with
a word boundary try the first alternative, then the second; on a match
continue right after it (the last matched character is a letter, so the
boundary state is "previous char is a word char"); otherwise advance one
character.  `prev_word` records whether the previous character is a word
character (`False` at the start of the string).  Structural recursion on
a fuel counter; the 0-fuel branch is unreachable from `regex_findall`. -/
def regex_findall_fuel : Nat → List Char → Bool → List (List Char)
  | 0, _, _ => []
  | _ + 1, [], _ => []
  | fuel + 1, c :: rest, prev_word =>
    if prev_word then regex_findall_fuel fuel rest (is_word_char c)
    else
      match match_cap (c :: rest) with
      | some mr => mr.1 :: regex_findall_fuel fuel mr.2 true
      | none =>
        match match_camel (c :: rest) with
        | some mr => mr.1 :: regex_findall_fuel fuel mr.2 true
        | none => regex_findall_fuel fuel rest (is_word_char c)

/-- Scanner entry point: every step of the scanner consumes at least one
character, so fuel equal to the input length never runs out. -/
def regex_findall (cs : List Char) (prev_word : Bool) : List (List Char) :=
  regex_findall_fuel cs.length cs prev_word

/-- Translation of `extract_keywords_from_bullet`: the regex matches,
de-duplicated (Python builds `list(set(words))`; only membership in the
result is used downstream, so the set is modelled as a deduplicated
list). -/
def extract_keywords_from_bullet (bullet : String) : List String :=
  ((regex_findall bullet.data false).map (fun cs => String.mk cs)).dedup

/-- Translation of `smart_keyword_selection`: drop keywords whose
lowercase form already occurs (lowercased) among the tokens extracted
from the bullet; if nothing is left, fall back to the first `max_count`
of the original list; otherwise sort the remainder by length (Python's
`list.sort(key=len)` is a stable sort; `List.insertionSort` is also
stable, and two stable sorts under the same comparator compute the same
permutation) and take the first `max_count`. -/
def smart_keyword_selection (all_keywords : List String) (bullet : String)
    (max_count : Nat) : List String :=
  let existing := extract_keywords_from_bullet bullet
  let new_keywords :=
    all_keywords.filter (fun kw => !(existing.any (fun e => py_lower e == py_lower kw)))
  if new_keywords = [] then all_keywords.take max_count
  else (List.insertionSort (fun a b => a.length ≤ b.length) new_keywords).take max_count

/-- Keyword-selection loop of `template_based_rewrite`: keep `kw` when
`current_length + (len(kw) + 8) < max_length`, accumulating
`current_length` over the kept keywords only. -/
def template_select (keywords : List String) (current_length max_length : Nat) :
    List String :=
  match keywords with
  | [] => []
  | kw :: rest =>
    let added_length := kw.length + 8
    if current_length + added_length < max_length then
      kw :: template_select rest (current_length + added_length) max_length
    else template_select rest current_length max_length

/-- Composition step of `template_based_rewrite`: split off the action
verb (`words[0]`), rejoin the remainder, and build
`"<action> <rest> using <kw1, kw2, …>"`, or `"<action> with <kw1, …>"`
when there is no remainder. -/
def template_enhanced (bullet : String) (selected_keywords : List String) : String :=
  let words := py_split_ws bullet
  let action_verb := words.headD ""
  let rest_of_bullet := if words.length > 1 then py_join " " words.tail else ""
  let keywords_part := py_join ", " selected_keywords
  if rest_of_bullet ≠ "" then
    action_verb ++ " " ++ rest_of_bullet ++ " using " ++ keywords_part
  else action_verb ++ " with " ++ keywords_part

/-- Translation of `template_based_rewrite`. -/
def template_based_rewrite (bullet : String) (keywords : List String)
    (max_length : Nat) : String :=
  if pystrip bullet = "" then bullet
  else
    let selected_keywords := template_select keywords bullet.length max_length
    if selected_keywords = [] then bullet
    else
      let enhanced := template_enhanced bullet selected_keywords
      if enhanced.length > max_length then py_rsplit_head (py_take enhanced max_length)
      else enhanced

/-- Keyword-selection loop of `simple_keyword_append`.  Python keeps `kw`
when `test_length < max_length - 1` over the integers; since
`test_length ≥ 3 ≥ 0`, this is equivalent to `test_length + 1 <
max_length` over `Nat` (also when `max_length` is `0`, where Python
compares against `-1`). -/
def append_select (keywords : List String) (current_length max_length : Nat) :
    List String :=
  match keywords with
  | [] => []
  | kw :: rest =>
    let test_length := current_length + kw.length + 3
    if test_length + 1 < max_length then kw :: append_select rest test_length max_length
    else append_select rest current_length max_length

/-- Composition step of `simple_keyword_append`:
`f"{clean_bullet} ({keywords_str})."`. -/
def append_enhanced (clean_bullet : String) (keywords_to_add : List String) : String :=
  clean_bullet ++ " (" ++ py_join ", " keywords_to_add ++ ")."

/-- Translation of `simple_keyword_append`. -/
def simple_keyword_append (bullet : String) (keywords : List String)
    (max_length : Nat) : String :=
  if pystrip bullet = "" then bullet
  else
    let clean_bullet := pystrip (py_rstrip_dot bullet)
    let keywords_to_add := append_select keywords clean_bullet.length max_length
    if keywords_to_add = [] then bullet
    else append_enhanced clean_bullet keywords_to_add

/-! The optional `ai_rewrite_func` of `cascading_fallback` may raise
(`Except.error`), return `None` (`Option.none`), or return any string;
Python's truthiness test `if result and result != bullet` is `False` for
`None` and for the empty string. -/

/-- Level 1 of `cascading_fallback`: full AI rewrite, entered when a
function is supplied and the keyword list is non-empty (truthy); accepted
only when the call returns a truthy string different from the input. -/
def cascade_level1 (bullet : String) (keywords : List String) (max_length : Nat)
    (ai_rewrite_func : Option (String → List String → Nat → Except String (Option String))) :
    Option (String × String) :=
  match ai_rewrite_func with
  | some f =>
    if keywords ≠ [] then
      match f bullet keywords max_length with
      | .ok (some result) =>
        if result ≠ "" ∧ result ≠ bullet then some (result, "ai_full") else none
      | _ => none
    else none
  | none => none

/-- Level 2 of `cascading_fallback`: AI rewrite with the smart subset of
at most 3 keywords, entered when a function is supplied and
`len(keywords) > 3`. -/
def cascade_level2 (bullet : String) (keywords : List String) (max_length : Nat)
    (ai_rewrite_func : Option (String → List String → Nat → Except String (Option String))) :
    Option (String × String) :=
  match ai_rewrite_func with
  | some f =>
    if keywords.length > 3 then
      match f bullet (smart_keyword_selection keywords bullet 3) max_length with
      | .ok (some result) =>
        if result ≠ "" ∧ result ≠ bullet then some (result, "ai_smart_subset") else none
      | _ => none
    else none
  | none => none

/-- Level 3 of `cascading_fallback`: template-based injection, accepted
when it changed the text (the body is pure, so the `try` cannot fail). -/
def cascade_level3 (bullet : String) (keywords : List String) (max_length : Nat) :
    Option (String × String) :=
  let result := template_based_rewrite bullet (smart_keyword_selection keywords bullet 3) max_length
  if result ≠ bullet then some (result, "template") else none

/-- Level 4 of `cascading_fallback`: simple append with at most 2 smart
keywords, accepted when it changed the text. -/
def cascade_level4 (bullet : String) (keywords : List String) (max_length : Nat) :
    Option (String × String) :=
  let result := simple_keyword_append bullet (smart_keyword_selection keywords bullet 2) max_length
  if result ≠ bullet then some (result, "append") else none

/-- Translation of `cascading_fallback`: try the levels in order (each
`return` in the Python source is the first `some` of this chain), falling
through to `(bullet, "original")`. -/
def cascading_fallback (bullet : String) (keywords : List String) (max_length : Nat)
    (ai_rewrite_func : Option (String → List String → Nat → Except String (Option String))) :
    String × String :=
  (((cascade_level1 bullet keywords max_length ai_rewrite_func).orElse fun _ =>
    (cascade_level2 bullet keywords max_length ai_rewrite_func).orElse fun _ =>
      (cascade_level3 bullet keywords max_length).orElse fun _ =>
        cascade_level4 bullet keywords max_length).getD (bullet, "original"))

end ResuForge

namespace ResuForge

/-! # Theorems -/

/-- Helper: `validate_constraints` is literally the length test. -/
theorem validate_constraints_eq (o c : String) (m : Nat) :
    validate_constraints o c m = true ↔ c.length ≤ m := by
  simp [validate_constraints]

/-! ## C2 — retry wrapper lemmas -/

/-- Helper: a call that raises the module's `TimeoutError` consumes one
call, is recorded as the last error, and the next attempt runs. -/
theorem with_retry_go_timeout_step {α : Type} (f : Nat → Except PyExc α)
    (r call_idx : Nat) (last : Option PyExc) (m : String)
    (h : f call_idx = .error (PyExc.timeoutErr m)) :
    with_retry_go f (r + 1) call_idx last =
      with_retry_go f r (call_idx + 1) (some (PyExc.timeoutErr m)) := by
  simp [with_retry_go, timed_call, h]

/-- Helper: after `k` leading timeout calls the loop sits `k` attempts
later at call `call_idx + k`, with the last of those timeouts recorded. -/
theorem with_retry_go_skip_timeouts {α : Type} (f : Nat → Except PyExc α) :
    ∀ (k r call_idx : Nat) (last : Option PyExc), k ≤ r →
      (∀ i, call_idx ≤ i → i < call_idx + k → ∃ m, f i = .error (PyExc.timeoutErr m)) →
      ∃ last2 : Option PyExc,
        with_retry_go f r call_idx last = with_retry_go f (r - k) (call_idx + k) last2 ∧
        (k = 0 → last2 = last) ∧
        (1 ≤ k → ∃ m, f (call_idx + k - 1) = .error (PyExc.timeoutErr m) ∧
          last2 = some (PyExc.timeoutErr m)) := by
  intro k
  induction k with
  | zero =>
    intro r ci last _ _
    exact ⟨last, by simp, fun _ => rfl, fun h1 => absurd h1 (by omega)⟩
  | succ n ih =>
    intro r ci last hkr hall
    obtain ⟨m0, hm0⟩ := hall ci le_rfl (by omega)
    obtain ⟨r0, hr⟩ : ∃ r0, r = r0 + 1 := ⟨r - 1, by omega⟩
    subst hr
    rw [with_retry_go_timeout_step f r0 ci last m0 hm0]
    obtain ⟨last2, heq, h0, h1⟩ := ih r0 (ci + 1) (some (PyExc.timeoutErr m0)) (by omega)
      (fun i hi1 hi2 => hall i (by omega) (by omega))
    refine ⟨last2, ?_, fun hn => by omega, ?_⟩
    · rw [heq]
      have e1 : r0 + 1 - (n + 1) = r0 - n := by omega
      have e2 : ci + (n + 1) = ci + 1 + n := by omega
      rw [e1, e2]
    · intro _
      cases n with
      | zero =>
        refine ⟨m0, ?_, h0 rfl⟩
        have e3 : ci + (0 + 1) - 1 = ci := by omega
        rw [e3]
        exact hm0
      | succ n2 =>
        obtain ⟨m, hm, hl⟩ := h1 (by omega)
        refine ⟨m, ?_, hl⟩
        have e4 : ci + (n2 + 1 + 1) - 1 = ci + 1 + (n2 + 1) - 1 := by omega
        rw [e4]
        exact hm

/-- Behaviour of `with_retry` under the embedded semantics.  When calls
`1..j-1` of the wrapped function raise the module's `TimeoutError` (each
consuming one attempt) and `j ≤ max_attempts`, call `j` decides attempt
`j`: a value is returned; a non-timeout, non-`AttributeError` exception
re-raises at once with no further call; but an `AttributeError` is
swallowed by the `timeout` decorator's platform-fallback handler and the
function is re-invoked immediately — without any timeout — so that the
second call's value or non-timeout exception becomes the result.  When
all `max_attempts` calls time out, the last timeout is raised. -/
theorem with_retry_semantics {α : Type} (max_attempts : Nat) (f : Nat → Except PyExc α)
    (hpos : 1 ≤ max_attempts) :
    ((∀ i, 1 ≤ i → i ≤ max_attempts → ∃ m, f i = .error (PyExc.timeoutErr m)) →
      ∀ m, f max_attempts = .error (PyExc.timeoutErr m) →
        with_retry max_attempts f = .error (some (PyExc.timeoutErr m))) ∧
    (∀ j, 1 ≤ j → j ≤ max_attempts →
      (∀ i, 1 ≤ i → i < j → ∃ mi, f i = .error (PyExc.timeoutErr mi)) →
      (∀ v, f j = .ok v → with_retry max_attempts f = .ok v) ∧
      (∀ m, f j = .error (PyExc.otherErr m) →
        with_retry max_attempts f = .error (some (PyExc.otherErr m))) ∧
      (∀ m, f j = .error (PyExc.attributeErr m) →
        (∀ v, f (j + 1) = .ok v → with_retry max_attempts f = .ok v) ∧
        (∀ m2, f (j + 1) = .error (PyExc.otherErr m2) →
          with_retry max_attempts f = .error (some (PyExc.otherErr m2))) ∧
        (∀ m2, f (j + 1) = .error (PyExc.attributeErr m2) →
          with_retry max_attempts f = .error (some (PyExc.attributeErr m2))))) := by
  constructor
  · intro hall m hm
    obtain ⟨last2, heq, -, h1⟩ := with_retry_go_skip_timeouts f max_attempts max_attempts 1
      none le_rfl (fun i hi1 hi2 => hall i hi1 (by omega))
    obtain ⟨m2, hm2, hl2⟩ := h1 hpos
    have e5 : 1 + max_attempts - 1 = max_attempts := by omega
    rw [e5] at hm2
    rw [hm] at hm2
    cases hm2
    unfold with_retry
    rw [heq]
    have e6 : max_attempts - max_attempts = 0 := by omega
    rw [e6, hl2]
    rfl
  · intro j hj1 hj2 hpre
    obtain ⟨last2, heq, -, -⟩ := with_retry_go_skip_timeouts f (j - 1) max_attempts 1
      none (by omega) (fun i hi1 hi2 => hpre i hi1 (by omega))
    obtain ⟨r0, hr0⟩ : ∃ r0, max_attempts - (j - 1) = r0 + 1 := ⟨max_attempts - j, by omega⟩
    have e7 : 1 + (j - 1) = j := by omega
    rw [hr0, e7] at heq
    have hw : with_retry max_attempts f = with_retry_go f (r0 + 1) j last2 := heq
    refine ⟨?_, ?_, ?_⟩
    · intro v hv
      rw [hw]
      simp [with_retry_go, timed_call, hv]
    · intro m hm
      rw [hw]
      simp [with_retry_go, timed_call, hm]
    · intro m hm
      refine ⟨?_, ?_, ?_⟩
      · intro v hv
        rw [hw]
        simp [with_retry_go, timed_call, hm, hv]
      · intro m2 hm2
        rw [hw]
        simp [with_retry_go, timed_call, hm, hm2]
      · intro m2 hm2
        rw [hw]
        simp [with_retry_go, timed_call, hm, hm2]

/-- C2, evaluated at the failing input: wrap a function whose first call
raises `AttributeError("no attr")` and whose second call returns `7`.
`with_retry` returns `7`: the non-timeout exception neither propagates
immediately nor goes unretried — the `timeout` decorator's
`except AttributeError` branch (`timeout_utils.py` lines 50-53, intended
for platforms without `SIGALRM`) swallows the wrapped function's own
`AttributeError` and re-invokes it with no timeout, and `with_retry`
never sees the exception. -/
theorem with_retry_attribute_error_swallowed :
    with_retry 3 (fun i =>
      if i = 1 then (Except.error (PyExc.attributeErr "no attr") : Except PyExc Nat)
      else Except.ok 7) = Except.ok 7 ∧
    (Except.ok 7 : Except (Option PyExc) Nat) ≠
      Except.error (some (PyExc.attributeErr "no attr")) :=
  ⟨rfl, fun h => Except.noConfusion h⟩

/-! ## C4 / C7 — BatchCoordinator lemmas -/

/-- Helper: full invariant of the `process_batch` loop in
continue-on-error mode (`fail_fast = False`): it never raises, produces
one result per item with consecutive indices, marks results successful
exactly as `item_marked_success` describes, and collects exactly the
`item_error_entry` reasons. -/
theorem process_batch_go_false_spec {α β : Type} (processor : α → Except String β)
    (fallback : Option (α → Except String β)) :
    ∀ (items : List α) (start : Nat),
      ∃ rs, process_batch_go false processor fallback items start = .ok rs ∧
        rs.length = items.length ∧
        (∀ i r, rs.get? i = some r → r.index = some (start + i)) ∧
        (rs.filter (fun r => r.success)).length =
          (items.filter (item_marked_success processor fallback)).length ∧
        (rs.filter (fun r => !r.success)).map (fun r => r.error) =
          items.filterMap (item_error_entry processor fallback) := by
  intro items
  induction items with
  | nil =>
    intro start
    exact ⟨[], rfl, rfl, fun i r h => by simp at h, by simp, by simp⟩
  | cons item rest ih =>
    intro start
    obtain ⟨rs, hgo, hlen, hidx, hcnt, herr⟩ := ih (start + 1)
    cases hp : processor item with
    | ok d =>
      refine ⟨{ success := true, data := Sum.inl d, error := none, index := some start } :: rs,
        ?_, ?_, ?_, ?_, ?_⟩
      · simp [process_batch_go, hp, hgo, Except.map]
      · simp [hlen]
      · intro i r h
        cases i with
        | zero => simp at h; subst h; simp
        | succ n =>
          simp only [List.get?_cons_succ] at h
          rw [hidx n r h]
          congr 1
          omega
      · simp [List.filter_cons, item_marked_success, hp, hcnt]
      · simp [List.filter_cons, List.filterMap_cons, item_error_entry, hp, herr]
    | error e =>
      have mkfail :
          ∀ (r0 : OperationResult α β), r0.success = false → r0.error = some e →
            r0.index = some start →
            process_batch_go false processor fallback (item :: rest) start =
              (process_batch_go false processor fallback rest (start + 1)).map
                (fun rs => r0 :: rs) →
            item_marked_success processor fallback item = false →
            item_error_entry processor fallback item = some (some e) →
            ∃ rs2, process_batch_go false processor fallback (item :: rest) start = .ok rs2 ∧
              rs2.length = (item :: rest).length ∧
              (∀ i r, rs2.get? i = some r → r.index = some (start + i)) ∧
              (rs2.filter (fun r => r.success)).length =
                ((item :: rest).filter (item_marked_success processor fallback)).length ∧
              (rs2.filter (fun r => !r.success)).map (fun r => r.error) =
                (item :: rest).filterMap (item_error_entry processor fallback) := by
        intro r0 hsucc herrf hidx0 hgoeq hmark hentry
        refine ⟨r0 :: rs, ?_, by simp [hlen], ?_, ?_, ?_⟩
        · rw [hgoeq, hgo]; rfl
        · intro i r h
          cases i with
          | zero => simp at h; subst h; simp [hidx0]
          | succ n =>
            simp only [List.get?_cons_succ] at h
            rw [hidx n r h]
            congr 1
            omega
        · simp [List.filter_cons, hsucc, hmark, hcnt]
        · simp [List.filter_cons, List.filterMap_cons, hsucc, hentry, herrf, herr]
      cases fallback with
      | none =>
        exact mkfail { success := false, data := Sum.inr item, error := some e, index := some start }
          rfl rfl rfl (by simp [process_batch_go, hp]) (by simp [item_marked_success, hp])
          (by simp [item_error_entry, hp])
      | some fb =>
        cases hfb : fb item with
        | ok d =>
          refine ⟨{ success := true, data := Sum.inl d, error := some ("Used fallback after error: " ++ e), index := some start } :: rs, ?_, ?_, ?_, ?_, ?_⟩
          · simp [process_batch_go, hp, hfb, hgo, Except.map]
          · simp [hlen]
          · intro i r h
            cases i with
            | zero => simp at h; subst h; simp
            | succ n =>
              simp only [List.get?_cons_succ] at h
              rw [hidx n r h]
              congr 1
              omega
          · simp [List.filter_cons, item_marked_success, hp, hfb, hcnt, Except.isOk, Except.toBool]
          · simp [List.filter_cons, List.filterMap_cons, item_error_entry, hp, hfb, herr]
        | error e2 =>
          exact mkfail { success := false, data := Sum.inr item, error := some e, index := some start }
            rfl rfl rfl (by simp [process_batch_go, hp, hfb]) (by simp [item_marked_success, hp, hfb, Except.isOk, Except.toBool])
            (by simp [item_error_entry, hp, hfb])

/-- C4: in continue-on-error mode (`fail_fast = False`), `process_batch`
returns (never raises) exactly one result per input item —
`len(results) == len(items)` — and the result in position `i` carries
`index = i`, whatever the processor and optional fallback do. -/
theorem process_batch_one_result_per_item {α β : Type} (items : List α)
    (processor : α → Except String β) (fallback : Option (α → Except String β)) :
    (∃ rs, process_batch false items processor fallback = .ok rs) ∧
    ∀ rs, process_batch false items processor fallback = .ok rs →
      rs.length = items.length ∧ ∀ i r, rs.get? i = some r → r.index = some i := by
  obtain ⟨rs, hgo, hlen, hidx, -, -⟩ := process_batch_go_false_spec processor fallback items 0
  refine ⟨⟨rs, hgo⟩, ?_⟩
  intro rs2 h2
  unfold process_batch at h2
  rw [hgo] at h2
  cases h2
  exact ⟨hlen, fun i r h => by simpa using hidx i r h⟩

/-- Witness for C4 at a concrete failing batch: both items fail, yet the
result list has one entry per item with matching indices. -/
theorem process_batch_one_result_per_item_witness :
    ({ success := false, data := Sum.inr "b", error := some "x", index := some 1 } :
        OperationResult String String).index = some 1 :=
  ((process_batch_one_result_per_item ["a", "b"] (fun _ => Except.error "x") none).2
    [{ success := false, data := Sum.inr "a", error := some "x", index := some 0 },
     { success := false, data := Sum.inr "b", error := some "x", index := some 1 }] rfl).2 1 _ rfl

/-- C7 counterexample: a one-item batch whose primary attempt raises
`"boom"` and is then recovered by the fallback.  The claim predicts
`successRate = successfulPrimary / total = 0 / 1 = 0` and an error list
containing the textual reason for this non-primary outcome; the code
instead counts the fallback recovery as a success (`success_rate = 1`)
and leaves the error list empty. -/
theorem get_summary_primary_rate_cex :
    process_batch false ["item"] (fun _ => (Except.error "boom" : Except String String))
        (some (fun s => Except.ok s)) =
      Except.ok [{ success := true, data := Sum.inl "item", error := some "Used fallback after error: boom", index := some 0 }] ∧
    (get_summary [({ success := true, data := Sum.inl "item", error := some "Used fallback after error: boom", index := some 0 } : OperationResult String String)]).success_rate = 1 ∧
    (get_summary [({ success := true, data := Sum.inl "item", error := some "Used fallback after error: boom", index := some 0 } : OperationResult String String)]).errors = [] ∧
    ((0 : ℚ) / 1 ≠ 1) := by
  refine ⟨rfl, ?_, rfl, by norm_num⟩
  simp [get_summary]

/-- C7 amended: for every batch processed in continue-on-error mode, the
summary's `success_rate` is the number of results the code marked
successful — primary successes *plus* fallback recoveries — divided by
the total (0 when the total is 0), and the `errors` list collects `str(e)`
only for the items where the processor failed and the fallback (if any)
failed too; fallback-recovered items do not appear in it. -/
theorem get_summary_of_process_batch {α β : Type} (items : List α)
    (processor : α → Except String β) (fallback : Option (α → Except String β))
    (rs : List (OperationResult α β))
    (h : process_batch false items processor fallback = .ok rs) :
    (get_summary rs).total = items.length ∧
    (get_summary rs).successful = (items.filter (item_marked_success processor fallback)).length ∧
    (get_summary rs).success_rate =
      (if 0 < items.length then
        ((items.filter (item_marked_success processor fallback)).length : ℚ) / (items.length : ℚ)
      else 0) ∧
    (get_summary rs).errors = items.filterMap (item_error_entry processor fallback) := by
  obtain ⟨rs2, hgo, hlen, -, hcnt, herr⟩ := process_batch_go_false_spec processor fallback items 0
  unfold process_batch at h
  rw [hgo] at h
  cases h
  refine ⟨?_, ?_, ?_, ?_⟩
  · simpa [get_summary] using hlen
  · simpa [get_summary] using hcnt
  · simp only [get_summary, hlen, hcnt]
  · simpa [get_summary] using herr

/-- Witness for the amended C7, at the concrete batch of the
counterexample: the recorded summary fields match the amended
description. -/
theorem get_summary_of_process_batch_witness :
    (get_summary [({ success := true, data := Sum.inl "item", error := some "Used fallback after error: boom", index := some 0 } : OperationResult String String)]).errors =
      ["item"].filterMap
        (item_error_entry (fun _ => (Except.error "boom" : Except String String))
          (some (fun s => Except.ok s))) :=
  (get_summary_of_process_batch ["item"] (fun _ => Except.error "boom")
    (some (fun s => Except.ok s)) _ rfl).2.2.2

/-! ## C1 — final acceptance gate of `optimize_bullets` -/

/-- Helper: element-wise description of the `optimize_bullets` validation
loop at an arbitrary starting index. -/
theorem optimize_validate_go_spec (bullets : List String) (constraints : List (Option Nat)) :
    ∀ (rewritten : List String) (idx : Nat),
      ((optimize_validate_go bullets constraints rewritten idx).1.length = rewritten.length) ∧
      ((optimize_validate_go bullets constraints rewritten idx).2.length = rewritten.length) ∧
      ∀ i t, rewritten.get? i = some t →
        (optimize_validate_go bullets constraints rewritten idx).1.get? i =
          some (if validate_constraints (original_at bullets (idx + i)) t
              (constraint_max_chars constraints (idx + i)) then t
            else original_at bullets (idx + i)) ∧
        (optimize_validate_go bullets constraints rewritten idx).2.get? i =
          some (validate_constraints (original_at bullets (idx + i)) t
            (constraint_max_chars constraints (idx + i))) := by
  intro rewritten
  induction rewritten with
  | nil =>
    intro idx
    exact ⟨rfl, rfl, fun i t h => by simp at h⟩
  | cons new_text rest ih =>
    intro idx
    obtain ⟨h1, h2, h3⟩ := ih (idx + 1)
    refine ⟨by simp [optimize_validate_go, h1], by simp [optimize_validate_go, h2], ?_⟩
    intro i t h
    cases i with
    | zero =>
      simp only [List.get?_cons_zero, Option.some.injEq] at h
      subst h
      simp [optimize_validate_go]
    | succ n =>
      simp only [List.get?_cons_succ] at h
      obtain ⟨g1, g2⟩ := h3 n t h
      have e : idx + 1 + n = idx + (n + 1) := by omega
      rw [e] at g1 g2
      exact ⟨by simpa [optimize_validate_go] using g1, by simpa [optimize_validate_go] using g2⟩

/-- C1: for every batch, the validation loop of `optimize_bullets` emits
one final text and one validity flag per candidate (it never rejects the
whole batch), and every accepted final text either satisfies its item's
`max_chars` budget or is exactly that item's original text; a candidate
that fails the length check is replaced by the original text and the item
is marked invalid. -/
theorem optimize_bullets_final_text_spec (bullets : List String)
    (constraints : List (Option Nat)) (rewritten : List String) :
    ((optimize_bullets_validate bullets constraints rewritten).1.length = rewritten.length) ∧
    ((optimize_bullets_validate bullets constraints rewritten).2.length = rewritten.length) ∧
    ∀ i t, rewritten.get? i = some t →
      ∃ v, (optimize_bullets_validate bullets constraints rewritten).1.get? i = some v ∧
        (v.length ≤ constraint_max_chars constraints i ∨ v = original_at bullets i) ∧
        (validate_constraints (original_at bullets i) t (constraint_max_chars constraints i)
            = false →
          v = original_at bullets i ∧
          (optimize_bullets_validate bullets constraints rewritten).2.get? i = some false) := by
  obtain ⟨h1, h2, h3⟩ := optimize_validate_go_spec bullets constraints rewritten 0
  unfold optimize_bullets_validate
  refine ⟨h1, h2, ?_⟩
  intro i t h
  obtain ⟨g1, g2⟩ := h3 i t h
  rw [Nat.zero_add] at g1 g2
  cases hv : validate_constraints (original_at bullets i) t (constraint_max_chars constraints i) with
  | true =>
    refine ⟨t, by rw [g1, hv]; simp, Or.inl ?_, by simp [hv]⟩
    exact (validate_constraints_eq _ _ _).mp hv
  | false =>
    exact ⟨original_at bullets i, by rw [g1, hv]; simp, Or.inr rfl,
      fun _ => ⟨rfl, by rw [g2, hv]⟩⟩

/-- Witness for C1: a candidate of length 7 against a budget of 3 is
replaced by the original text and flagged invalid. -/
theorem optimize_bullets_final_text_spec_witness :
    (optimize_bullets_validate ["hello"] [some 3] ["toolong"]).1.get? 0 = some "hello" ∧
    (optimize_bullets_validate ["hello"] [some 3] ["toolong"]).2.get? 0 = some false := by
  obtain ⟨v, hv, -, himp⟩ :=
    (optimize_bullets_final_text_spec ["hello"] [some 3] ["toolong"]).2.2 0 "toolong" rfl
  obtain ⟨hveq, hflag⟩ := himp (by decide)
  subst hveq
  exact ⟨hv, hflag⟩

/-! ## C3 — no truncation in `RewriteAgent.rewrite_bullet` -/

/-- C3 counterexample: the external capability succeeds with a 17
character text against `max_chars = 10`; the claim says the invoker
truncates it at the last whitespace boundary at or before the limit
(yielding a result of length at most 10), but `rewrite_bullet` returns
the oversized text verbatim (it only logs a warning). -/
theorem rewrite_bullet_no_truncation_cex :
    rewrite_bullet "Built API" ["React"] 10 (Except.ok "aaaaaaaaaaaa bbbb") =
      "aaaaaaaaaaaa bbbb" ∧
    ("aaaaaaaaaaaa bbbb" : String).length = 17 ∧ ¬ (17 ≤ 10) := by
  exact ⟨by decide, by decide, by decide⟩

/-- C3 amended: on a successful external call `rewrite_bullet` returns the
stripped model output unchanged — even when it exceeds `max_chars`, which
is only logged — and the call is not treated as a failure; length
enforcement is left to the caller (`optimize_bullets` validation).  On any
exception it returns the original text. -/
theorem rewrite_bullet_returns_output_verbatim (b : String) (kws : List String) (m : Nat) :
    (∀ content, rewrite_bullet b kws m (Except.ok content) = pystrip content) ∧
    (∀ e, rewrite_bullet b kws m (Except.error e) = b) :=
  ⟨fun _ => rfl, fun _ => rfl⟩

/-! ## C8 — ConstraintValidator -/

/-- C8: the constraint validator returns `true` iff the candidate length
is at most `max_chars`; it is a pure function of its arguments (it is a
Lean function, hence stateless and side-effect free), and in particular
validating the original against itself succeeds whenever
`max_chars ≥ len(original)`. -/
theorem validate_constraints_spec (original candidate : String) (max_chars : Nat) :
    (validate_constraints original candidate max_chars = true ↔ candidate.length ≤ max_chars) ∧
    (original.length ≤ max_chars → validate_constraints original original max_chars = true) := by
  constructor
  · exact validate_constraints_eq original candidate max_chars
  · intro h
    exact (validate_constraints_eq original original max_chars).mpr h

/-- Witness for C8 at a concrete input. -/
theorem validate_constraints_spec_witness :
    validate_constraints "Built API" "Built API" 20 = true :=
  (validate_constraints_spec "Built API" "Built API" 20).2 (by decide)

/-! ## FallbackCascade lemmas -/

/-- Helper: `String.mk` length. -/
theorem string_mk_length (l : List Char) : (String.mk l).length = l.length := rfl

/-- Helper: string length is the length of the character list. -/
theorem string_data_length (s : String) : s.length = s.data.length := rfl

/-- Helper: the keyword loop of `template_based_rewrite` only keeps
keywords while the estimated `current_length` stays under `max_length`:
when it keeps any keyword at all, the start length plus the estimated
8-character overhead per kept keyword is below the budget. -/
theorem template_select_bound :
    ∀ (kws : List String) (cur m : Nat), template_select kws cur m ≠ [] →
      cur + ((template_select kws cur m).map String.length).sum
        + 8 * (template_select kws cur m).length < m := by
  intro kws
  induction kws with
  | nil => intro cur m h; simp [template_select] at h
  | cons kw rest ih =>
    intro cur m h
    by_cases hc : cur + (kw.length + 8) < m
    · simp only [template_select, if_pos hc] at h ⊢
      by_cases ht : template_select rest (cur + (kw.length + 8)) m = []
      · simp only [ht, List.map_cons, List.map_nil, List.sum_cons, List.sum_nil,
          List.length_cons, List.length_nil]
        omega
      · have hr := ih (cur + (kw.length + 8)) m ht
        simp only [List.map_cons, List.sum_cons, List.length_cons, Nat.mul_succ]
        omega
    · simp only [template_select, if_neg hc] at h ⊢
      exact ih cur m h

/-- Helper: same bound for the loop of `simple_keyword_append`, whose
test keeps `test_length < max_length - 1` (one spare character for the
closing period) with a 3-character overhead estimate per keyword. -/
theorem append_select_bound :
    ∀ (kws : List String) (cur m : Nat), append_select kws cur m ≠ [] →
      cur + ((append_select kws cur m).map String.length).sum
        + 3 * (append_select kws cur m).length + 1 < m := by
  intro kws
  induction kws with
  | nil => intro cur m h; simp [append_select] at h
  | cons kw rest ih =>
    intro cur m h
    by_cases hc : cur + kw.length + 3 + 1 < m
    · simp only [append_select, if_pos hc] at h ⊢
      by_cases ht : append_select rest (cur + kw.length + 3) m = []
      · simp only [ht, List.map_cons, List.map_nil, List.sum_cons, List.sum_nil,
          List.length_cons, List.length_nil]
        omega
      · have hr := ih (cur + kw.length + 3) m ht
        simp only [List.map_cons, List.sum_cons, List.length_cons, Nat.mul_succ]
        omega
    · simp only [append_select, if_neg hc] at h ⊢
      exact ih cur m h

/-- Helper: length of a `", ".join`. -/
theorem py_join_comma_length : ∀ (l : List String), l ≠ [] →
    (py_join ", " l).length = (l.map String.length).sum + 2 * (l.length - 1) := by
  intro l
  induction l with
  | nil => intro h; exact absurd rfl h
  | cons x xs ih =>
    intro _hne
    cases xs with
    | nil => simp [py_join]
    | cons y rest =>
      have hr := ih (by simp)
      simp only [py_join] at hr ⊢
      rw [String.length_append, String.length_append, hr]
      simp only [List.map_cons, List.sum_cons, List.length_cons]
      have h2 : (", " : String).length = 2 := rfl
      omega

/-- Helper: length of a `" ".join`. -/
theorem py_join_space_length : ∀ (l : List String), l ≠ [] →
    (py_join " " l).length = (l.map String.length).sum + (l.length - 1) := by
  intro l
  induction l with
  | nil => intro h; exact absurd rfl h
  | cons x xs ih =>
    intro _hne
    cases xs with
    | nil => simp [py_join]
    | cons y rest =>
      have hr := ih (by simp)
      simp only [py_join] at hr ⊢
      rw [String.length_append, String.length_append, hr]
      simp only [List.map_cons, List.sum_cons, List.length_cons]
      have h2 : (" " : String).length = 1 := rfl
      omega

/-- Helper: Python `split()` produces tokens whose total length plus the
token count is at most the input length plus one (tokens are separated by
at least one whitespace character each). -/
theorem py_words_go_sum : ∀ (cs cur : List Char),
    ((py_words_go cs cur).map String.length).sum + (py_words_go cs cur).length ≤
      cs.length + cur.length + 1 := by
  intro cs
  induction cs with
  | nil =>
    intro cur
    by_cases h : cur = []
    · simp [py_words_go, h]
    · simp only [py_words_go, if_neg h, List.map_cons, List.map_nil, List.sum_cons,
        List.sum_nil, List.length_cons, List.length_nil, string_mk_length,
        List.length_reverse]
      omega
  | cons c rest ih =>
    intro cur
    by_cases hw : c.isWhitespace
    · by_cases h : cur = []
      · simp only [py_words_go, if_pos hw, if_pos h, List.length_cons]
        have := ih []
        simp only [List.length_nil] at this
        omega
      · simp only [py_words_go, if_pos hw, if_neg h, List.map_cons, List.sum_cons,
          List.length_cons, string_mk_length, List.length_reverse]
        have := ih []
        simp only [List.length_nil] at this
        omega
    · simp only [py_words_go, if_neg hw, List.length_cons]
      have := ih (c :: cur)
      simp only [List.length_cons] at this
      omega

/-- Helper: the composed template text is bounded by the original length
plus the keyword lengths plus a small connective overhead (the join uses
2 characters per keyword gap and one of `" using "`/`" with "`), and is
at least 6 characters long. -/
theorem template_enhanced_le (bullet : String) (sel : List String) (hne : sel ≠ []) :
    (template_enhanced bullet sel).length ≤
      bullet.length + (sel.map String.length).sum + 2 * sel.length + 5 ∧
    6 ≤ (template_enhanced bullet sel).length := by
  have hkp := py_join_comma_length sel hne
  have hk1 : 1 ≤ sel.length := by
    cases sel with
    | nil => exact absurd rfl hne
    | cons a l => simp
  have hW := py_words_go_sum bullet.data []
  rw [List.length_nil] at hW
  have hWlen : bullet.data.length = bullet.length := rfl
  have withcase : ∀ av : String, av.length ≤ bullet.length →
      ((av ++ " with " ++ py_join ", " sel).length ≤
        bullet.length + (sel.map String.length).sum + 2 * sel.length + 5 ∧
       6 ≤ (av ++ " with " ++ py_join ", " sel).length) := by
    intro av hav
    rw [String.length_append, String.length_append, hkp]
    have h6 : (" with " : String).length = 6 := rfl
    constructor <;> omega
  cases hwords : py_split_ws bullet with
  | nil =>
    have hrw : template_enhanced bullet sel = "" ++ " with " ++ py_join ", " sel := by
      simp [template_enhanced, hwords]
    rw [hrw]
    exact withcase "" (by simp)
  | cons w ws =>
    have hwle : w.length + ((ws.map String.length).sum + ws.length) ≤ bullet.length := by
      unfold py_split_ws at hwords
      rw [hwords] at hW
      simp only [List.map_cons, List.sum_cons, List.length_cons] at hW
      omega
    cases ws with
    | nil =>
      have hrw : template_enhanced bullet sel = w ++ " with " ++ py_join ", " sel := by
        simp [template_enhanced, hwords]
      rw [hrw]
      refine withcase w ?_
      simp only [List.map_nil, List.sum_nil, List.length_nil] at hwle
      omega
    | cons y rest2 =>
      by_cases hjoin : py_join " " (y :: rest2) = ""
      · have hrw : template_enhanced bullet sel = w ++ " with " ++ py_join ", " sel := by
          simp [template_enhanced, hwords, hjoin]
        rw [hrw]
        refine withcase w ?_
        simp only [List.map_cons, List.sum_cons, List.length_cons] at hwle
        omega
      · have hrw : template_enhanced bullet sel =
            w ++ " " ++ py_join " " (y :: rest2) ++ " using " ++ py_join ", " sel := by
          simp [template_enhanced, hwords, hjoin]
        rw [hrw]
        have hjl := py_join_space_length (y :: rest2) (by simp)
        rw [String.length_append, String.length_append, String.length_append,
          String.length_append, hkp, hjl]
        simp only [List.map_cons, List.sum_cons, List.length_cons] at hwle ⊢
        have h7 : (" using " : String).length = 7 := rfl
        have h1 : (" " : String).length = 1 := rfl
        constructor <;> omega

/-- Helper: exact length of the composed append text. -/
theorem append_enhanced_length (clean : String) (sel : List String) (hne : sel ≠ []) :
    (append_enhanced clean sel).length =
      clean.length + (sel.map String.length).sum + 2 * sel.length + 2 := by
  unfold append_enhanced
  rw [String.length_append, String.length_append, String.length_append,
    py_join_comma_length sel hne]
  have h2 : (" (" : String).length = 2 := rfl
  have h3 : (")." : String).length = 2 := rfl
  have hk1 : 1 ≤ sel.length := by
    cases sel with
    | nil => exact absurd rfl hne
    | cons a l => simp
  omega

/-- Helper: `template_based_rewrite` returns the input unchanged, or a
text strictly shorter than `max_length` and at least 6 characters long
(so non-empty); the explicit truncation branch is unreachable because
the keyword budget already keeps the composed text under the limit. -/
theorem template_based_rewrite_cases (bullet : String) (kws : List String) (m : Nat) :
    template_based_rewrite bullet kws m = bullet ∨
      ((template_based_rewrite bullet kws m).length < m ∧
        6 ≤ (template_based_rewrite bullet kws m).length) := by
  by_cases h0 : pystrip bullet = ""
  · left
    simp [template_based_rewrite, h0]
  · by_cases h1 : template_select kws bullet.length m = []
    · left
      simp [template_based_rewrite, h0, h1]
    · right
      have hb := template_select_bound kws bullet.length m h1
      have he := template_enhanced_le bullet (template_select kws bullet.length m) h1
      have hk1 : 1 ≤ (template_select kws bullet.length m).length := by
        cases hsel : template_select kws bullet.length m with
        | nil => exact absurd hsel h1
        | cons a l => simp
      have hlt : (template_enhanced bullet (template_select kws bullet.length m)).length < m := by
        omega
      have hnotgt : ¬ (template_enhanced bullet (template_select kws bullet.length m)).length > m := by
        omega
      have hres : template_based_rewrite bullet kws m =
          template_enhanced bullet (template_select kws bullet.length m) := by
        simp [template_based_rewrite, h0, h1, hnotgt]
      rw [hres]
      exact ⟨hlt, he.2⟩

/-- Helper: `simple_keyword_append` returns the input unchanged, or a
text strictly shorter than `max_length` and at least 4 characters long
(so non-empty). -/
theorem simple_keyword_append_cases (bullet : String) (kws : List String) (m : Nat) :
    simple_keyword_append bullet kws m = bullet ∨
      ((simple_keyword_append bullet kws m).length < m ∧
        4 ≤ (simple_keyword_append bullet kws m).length) := by
  by_cases h0 : pystrip bullet = ""
  · left
    simp [simple_keyword_append, h0]
  · by_cases h1 : append_select kws (pystrip (py_rstrip_dot bullet)).length m = []
    · left
      simp [simple_keyword_append, h0, h1]
    · right
      have hb := append_select_bound kws (pystrip (py_rstrip_dot bullet)).length m h1
      have hlen := append_enhanced_length (pystrip (py_rstrip_dot bullet))
        (append_select kws (pystrip (py_rstrip_dot bullet)).length m) h1
      have hk1 : 1 ≤ (append_select kws (pystrip (py_rstrip_dot bullet)).length m).length := by
        cases hsel : append_select kws (pystrip (py_rstrip_dot bullet)).length m with
        | nil => exact absurd hsel h1
        | cons a l => simp
      have hres : simple_keyword_append bullet kws m =
          append_enhanced (pystrip (py_rstrip_dot bullet))
            (append_select kws (pystrip (py_rstrip_dot bullet)).length m) := by
        simp [simple_keyword_append, h0, h1]
      rw [hres, hlen]
      constructor <;> omega

/-- C10: the two deterministic cascade strategies each return either the
input bullet unchanged or a string whose length is strictly below
`max_length`: the per-keyword overhead estimates (8 characters for the
template connective, 3 characters plus a reserved period character for
append) keep the composed text within the budget, so even the final
whitespace-truncation guard of the template level never has to fire. -/
theorem deterministic_levels_within_budget (bullet : String) (kws : List String) (m : Nat) :
    (template_based_rewrite bullet kws m = bullet ∨
      (template_based_rewrite bullet kws m).length < m) ∧
    (simple_keyword_append bullet kws m = bullet ∨
      (simple_keyword_append bullet kws m).length < m) := by
  constructor
  · rcases template_based_rewrite_cases bullet kws m with h | h
    · exact Or.inl h
    · exact Or.inr h.1
  · rcases simple_keyword_append_cases bullet kws m with h | h
    · exact Or.inl h
    · exact Or.inr h.1

/-- Helper: a string of positive length is not empty. -/
theorem string_ne_empty_of_length_pos {s : String} (h : 0 < s.length) : s ≠ "" := by
  intro heq
  subst heq
  simp at h

/-- Helper: what it takes for cascade level 1 to fire. -/
theorem cascade_level1_some (b : String) (k : List String) (m : Nat)
    (f? : Option (String → List String → Nat → Except String (Option String)))
    (t tag : String) (h : cascade_level1 b k m f? = some (t, tag)) :
    tag = "ai_full" ∧ t ≠ "" ∧ t ≠ b ∧
      ∃ f, f? = some f ∧ k ≠ [] ∧ f b k m = Except.ok (some t) := by
  cases f? with
  | none => simp [cascade_level1] at h
  | some f =>
    by_cases hk : k = []
    · simp [cascade_level1, hk] at h
    · cases hres : f b k m with
      | error e => simp [cascade_level1, hk, hres] at h
      | ok o =>
        cases o with
        | none => simp [cascade_level1, hk, hres] at h
        | some result =>
          by_cases hacc : result ≠ "" ∧ result ≠ b
          · simp [cascade_level1, hk, hres, hacc.1, hacc.2] at h
            obtain ⟨h1, h2⟩ := h
            subst h1
            subst h2
            exact ⟨rfl, hacc.1, hacc.2, f, rfl, hk, hres⟩
          · simp [cascade_level1, hk, hres, hacc] at h

/-- Helper: what it takes for cascade level 2 to fire. -/
theorem cascade_level2_some (b : String) (k : List String) (m : Nat)
    (f? : Option (String → List String → Nat → Except String (Option String)))
    (t tag : String) (h : cascade_level2 b k m f? = some (t, tag)) :
    tag = "ai_smart_subset" ∧ t ≠ "" ∧ t ≠ b ∧
      ∃ f, f? = some f ∧ k.length > 3 ∧
        f b (smart_keyword_selection k b 3) m = Except.ok (some t) := by
  cases f? with
  | none => simp [cascade_level2] at h
  | some f =>
    by_cases hk : k.length > 3
    · cases hres : f b (smart_keyword_selection k b 3) m with
      | error e => simp [cascade_level2, hk, hres] at h
      | ok o =>
        cases o with
        | none => simp [cascade_level2, hk, hres] at h
        | some result =>
          by_cases hacc : result ≠ "" ∧ result ≠ b
          · simp [cascade_level2, hk, hres, hacc.1, hacc.2] at h
            obtain ⟨h1, h2⟩ := h
            subst h1
            subst h2
            exact ⟨rfl, hacc.1, hacc.2, f, rfl, hk, hres⟩
          · simp [cascade_level2, hk, hres, hacc] at h
    · simp [cascade_level2, hk] at h

/-- Helper: what it takes for cascade level 3 to fire. -/
theorem cascade_level3_some (b : String) (k : List String) (m : Nat)
    (t tag : String) (h : cascade_level3 b k m = some (t, tag)) :
    tag = "template" ∧
      t = template_based_rewrite b (smart_keyword_selection k b 3) m ∧ t ≠ b := by
  unfold cascade_level3 at h
  by_cases hc : template_based_rewrite b (smart_keyword_selection k b 3) m ≠ b
  · simp [hc] at h
    obtain ⟨h1, h2⟩ := h
    subst h1
    subst h2
    exact ⟨rfl, rfl, hc⟩
  · simp [hc] at h

/-- Helper: what it takes for cascade level 4 to fire. -/
theorem cascade_level4_some (b : String) (k : List String) (m : Nat)
    (t tag : String) (h : cascade_level4 b k m = some (t, tag)) :
    tag = "append" ∧
      t = simple_keyword_append b (smart_keyword_selection k b 2) m ∧ t ≠ b := by
  unfold cascade_level4 at h
  by_cases hc : simple_keyword_append b (smart_keyword_selection k b 2) m ≠ b
  · simp [hc] at h
    obtain ⟨h1, h2⟩ := h
    subst h1
    subst h2
    exact ⟨rfl, rfl, hc⟩
  · simp [hc] at h

/-- C5: for every non-empty original bullet, every keyword list, every
budget and every behaviour of the supplied external rewrite function —
raising, returning `None`, returning the empty string, or anything else —
the text produced by `cascading_fallback` is non-empty: the AI levels only
accept truthy results, the deterministic levels only accept composed texts
of length at least 6 (template) or 4 (append), and the floor returns the
original. -/
theorem cascading_fallback_nonempty (bullet : String) (keywords : List String)
    (max_length : Nat)
    (ai_rewrite_func : Option (String → List String → Nat → Except String (Option String)))
    (h : bullet ≠ "") :
    (cascading_fallback bullet keywords max_length ai_rewrite_func).1 ≠ "" := by
  unfold cascading_fallback
  cases hl1 : cascade_level1 bullet keywords max_length ai_rewrite_func with
  | some out =>
    obtain ⟨t, tag⟩ := out
    simp only [Option.some_orElse', Option.getD_some]
    exact (cascade_level1_some bullet keywords max_length ai_rewrite_func t tag hl1).2.1
  | none =>
    simp only [Option.none_orElse']
    cases hl2 : cascade_level2 bullet keywords max_length ai_rewrite_func with
    | some out =>
      obtain ⟨t, tag⟩ := out
      simp only [Option.some_orElse', Option.getD_some]
      exact (cascade_level2_some bullet keywords max_length ai_rewrite_func t tag hl2).2.1
    | none =>
      simp only [Option.none_orElse']
      cases hl3 : cascade_level3 bullet keywords max_length with
      | some out =>
        obtain ⟨t, tag⟩ := out
        simp only [Option.some_orElse', Option.getD_some]
        obtain ⟨-, ht, hne⟩ := cascade_level3_some bullet keywords max_length t tag hl3
        rcases template_based_rewrite_cases bullet
            (smart_keyword_selection keywords bullet 3) max_length with hc | hc
        · exact absurd (ht.trans hc) hne
        · subst ht
          apply string_ne_empty_of_length_pos
          omega
      | none =>
        simp only [Option.none_orElse']
        cases hl4 : cascade_level4 bullet keywords max_length with
        | some out =>
          obtain ⟨t, tag⟩ := out
          simp only [Option.getD_some]
          obtain ⟨-, ht, hne⟩ := cascade_level4_some bullet keywords max_length t tag hl4
          rcases simple_keyword_append_cases bullet
              (smart_keyword_selection keywords bullet 2) max_length with hc | hc
          · exact absurd (ht.trans hc) hne
          · subst ht
            apply string_ne_empty_of_length_pos
            omega
        | none =>
          simp only [Option.getD_none]
          exact h

/-- Witness for C5 at a concrete input: with no AI function and no
keywords the cascade bottoms out at the original, which is non-empty. -/
theorem cascading_fallback_nonempty_witness :
    (cascading_fallback "Built API" [] 50 none).1 ≠ "" :=
  cascading_fallback_nonempty "Built API" [] 50 none (by decide)

/-- C6: necessary success conditions per cascade level.  If the cascade
returns with tag `ai_full` or `ai_smart_subset`, the external call
returned without error (with a truthy result differing from the input);
if it returns with tag `template` or `append`, that deterministic level
produced an output differing from the input; the tag `original` carries
the unchanged input, and the returned tag is always one of the five —
so whenever a level's success condition fails, control passed to the
next level, with `original` as the unconditional floor. -/
theorem cascading_fallback_level_necessity (bullet : String) (keywords : List String)
    (max_length : Nat)
    (ai_rewrite_func : Option (String → List String → Nat → Except String (Option String)))
    (t tag : String)
    (h : cascading_fallback bullet keywords max_length ai_rewrite_func = (t, tag)) :
    (tag = "ai_full" → t ≠ bullet ∧ t ≠ "" ∧
      ∃ f, ai_rewrite_func = some f ∧ keywords ≠ [] ∧
        f bullet keywords max_length = Except.ok (some t)) ∧
    (tag = "ai_smart_subset" → t ≠ bullet ∧ t ≠ "" ∧
      ∃ f, ai_rewrite_func = some f ∧ keywords.length > 3 ∧
        f bullet (smart_keyword_selection keywords bullet 3) max_length =
          Except.ok (some t)) ∧
    (tag = "template" →
      t = template_based_rewrite bullet (smart_keyword_selection keywords bullet 3)
        max_length ∧ t ≠ bullet) ∧
    (tag = "append" →
      t = simple_keyword_append bullet (smart_keyword_selection keywords bullet 2)
        max_length ∧ t ≠ bullet) ∧
    (tag = "original" → t = bullet) ∧
    (tag = "ai_full" ∨ tag = "ai_smart_subset" ∨ tag = "template" ∨ tag = "append" ∨
      tag = "original") := by
  unfold cascading_fallback at h
  cases hl1 : cascade_level1 bullet keywords max_length ai_rewrite_func with
  | some out =>
    rw [hl1] at h
    simp only [Option.some_orElse', Option.getD_some] at h
    subst h
    obtain ⟨htag, hne, hneb, f, hf, hk, hres⟩ :=
      cascade_level1_some bullet keywords max_length ai_rewrite_func t tag hl1
    subst htag
    refine ⟨fun _ => ⟨hneb, hne, f, hf, hk, hres⟩, ?_, ?_, ?_, ?_, Or.inl rfl⟩ <;>
      exact fun hx => absurd hx (by decide)
  | none =>
    rw [hl1] at h
    simp only [Option.none_orElse'] at h
    cases hl2 : cascade_level2 bullet keywords max_length ai_rewrite_func with
    | some out =>
      rw [hl2] at h
      simp only [Option.some_orElse', Option.getD_some] at h
      subst h
      obtain ⟨htag, hne, hneb, f, hf, hk, hres⟩ :=
        cascade_level2_some bullet keywords max_length ai_rewrite_func t tag hl2
      subst htag
      refine ⟨?_, fun _ => ⟨hneb, hne, f, hf, hk, hres⟩, ?_, ?_, ?_,
        Or.inr (Or.inl rfl)⟩ <;> exact fun hx => absurd hx (by decide)
    | none =>
      rw [hl2] at h
      simp only [Option.none_orElse'] at h
      cases hl3 : cascade_level3 bullet keywords max_length with
      | some out =>
        rw [hl3] at h
        simp only [Option.some_orElse', Option.getD_some] at h
        subst h
        obtain ⟨htag, ht, hneb⟩ :=
          cascade_level3_some bullet keywords max_length t tag hl3
        subst htag
        refine ⟨?_, ?_, fun _ => ⟨ht, hneb⟩, ?_, ?_, Or.inr (Or.inr (Or.inl rfl))⟩ <;>
          exact fun hx => absurd hx (by decide)
      | none =>
        rw [hl3] at h
        simp only [Option.none_orElse'] at h
        cases hl4 : cascade_level4 bullet keywords max_length with
        | some out =>
          rw [hl4] at h
          simp only [Option.getD_some] at h
          subst h
          obtain ⟨htag, ht, hneb⟩ :=
            cascade_level4_some bullet keywords max_length t tag hl4
          subst htag
          refine ⟨?_, ?_, ?_, fun _ => ⟨ht, hneb⟩, ?_,
            Or.inr (Or.inr (Or.inr (Or.inl rfl)))⟩ <;>
            exact fun hx => absurd hx (by decide)
        | none =>
          rw [hl4] at h
          simp only [Option.getD_none] at h
          injection h with h1 h2
          subst h1
          subst h2
          refine ⟨?_, ?_, ?_, ?_, fun _ => rfl,
            Or.inr (Or.inr (Or.inr (Or.inr rfl)))⟩ <;>
            exact fun hx => absurd hx (by decide)


/-- Witness for C6 at a concrete input: with no AI function, three
keywords, and a 120-character budget, the cascade fires at the template
level, so the necessity theorem yields the template equation and the
changed-text condition. -/
theorem cascading_fallback_level_necessity_witness :
    "Improved latency using AWS, Python, Kubernetes" =
      template_based_rewrite "Improved latency"
        (smart_keyword_selection ["Python", "AWS", "Kubernetes"] "Improved latency" 3) 120 ∧
    "Improved latency using AWS, Python, Kubernetes" ≠ "Improved latency" :=
  (cascading_fallback_level_necessity "Improved latency" ["Python", "AWS", "Kubernetes"] 120
    none "Improved latency using AWS, Python, Kubernetes" "template" (by decide)).2.2.1 rfl

/-- C9: the keyword selector drops the keywords already present in the
bullet — case-insensitively, against the capitalized/camel-cased tokens
the extraction regex finds in the text; if that removal empties the list
it returns the first `max_count` keywords of the original list, and
otherwise it returns exactly the first `max_count` entries of the
remaining candidates sorted by length ascending (a stable sort, as in
Python) — shown both as the literal sort-prefix equation and through its
consequences: the result has `min max_count |filtered|` elements, drawn
from the filtered candidates, in ascending length order. -/
theorem smart_keyword_selection_spec (all_keywords : List String) (bullet : String)
    (max_count : Nat) :
    (smart_keyword_selection all_keywords bullet max_count).length ≤ max_count ∧
    (all_keywords.filter (fun kw => !((extract_keywords_from_bullet bullet).any
        (fun e => py_lower e == py_lower kw))) = [] →
      smart_keyword_selection all_keywords bullet max_count = all_keywords.take max_count) ∧
    (all_keywords.filter (fun kw => !((extract_keywords_from_bullet bullet).any
        (fun e => py_lower e == py_lower kw))) ≠ [] →
      smart_keyword_selection all_keywords bullet max_count =
        (List.insertionSort (fun a b => a.length ≤ b.length)
          (all_keywords.filter (fun kw => !((extract_keywords_from_bullet bullet).any
            (fun e => py_lower e == py_lower kw))))).take max_count ∧
      (smart_keyword_selection all_keywords bullet max_count).length =
        min max_count (all_keywords.filter (fun kw =>
          !((extract_keywords_from_bullet bullet).any
            (fun e => py_lower e == py_lower kw)))).length ∧
      (∀ kw ∈ smart_keyword_selection all_keywords bullet max_count,
        kw ∈ all_keywords.filter (fun kw2 => !((extract_keywords_from_bullet bullet).any
          (fun e => py_lower e == py_lower kw2)))) ∧
      List.Pairwise (fun a b => a.length ≤ b.length)
        (smart_keyword_selection all_keywords bullet max_count)) := by
  by_cases hnk : all_keywords.filter (fun kw => !((extract_keywords_from_bullet bullet).any
      (fun e => py_lower e == py_lower kw))) = []
  · have hres : smart_keyword_selection all_keywords bullet max_count =
        all_keywords.take max_count := by
      simp only [smart_keyword_selection, hnk, if_pos]
    refine ⟨?_, fun _ => hres, fun hne => absurd hnk hne⟩
    rw [hres]
    exact List.length_take_le max_count all_keywords
  · have hres : smart_keyword_selection all_keywords bullet max_count =
        (List.insertionSort (fun a b => a.length ≤ b.length)
          (all_keywords.filter (fun kw => !((extract_keywords_from_bullet bullet).any
            (fun e => py_lower e == py_lower kw))))).take max_count := by
      simp only [smart_keyword_selection, hnk, if_neg, ite_false]
    have hperm := List.perm_insertionSort (fun a b => a.length ≤ b.length)
      (all_keywords.filter (fun kw => !((extract_keywords_from_bullet bullet).any
        (fun e => py_lower e == py_lower kw))))
    refine ⟨?_, fun heq => absurd heq hnk, fun _ => ⟨hres, ?_, ?_, ?_⟩⟩
    · rw [hres]
      exact List.length_take_le max_count _
    · rw [hres, List.length_take, hperm.length_eq]
    · intro kw hkw
      rw [hres] at hkw
      exact hperm.subset (List.take_subset max_count _ hkw)
    · rw [hres]
      refine List.Pairwise.sublist (List.take_sublist max_count _) ?_
      haveI htot : IsTotal String (fun a b => a.length ≤ b.length) :=
        ⟨fun a b => Nat.le_total a.length b.length⟩
      haveI htrans : IsTrans String (fun a b => a.length ≤ b.length) :=
        ⟨fun _ _ _ h1 h2 => Nat.le_trans h1 h2⟩
      exact List.sorted_insertionSort (fun a b : String => a.length ≤ b.length) _

/-- Witness for C9 at a concrete input: none of the three keywords occurs
among the tokens of the bullet, so they all survive the filter and the
selection is the two shortest in ascending length order — the first-2
prefix of the stable sort. -/
theorem smart_keyword_selection_spec_witness :
    smart_keyword_selection ["Python", "AWS", "Kubernetes"] "Improved latency" 2 =
      (List.insertionSort (fun a b => a.length ≤ b.length)
        (["Python", "AWS", "Kubernetes"].filter (fun kw =>
          !((extract_keywords_from_bullet "Improved latency").any
            (fun e => py_lower e == py_lower kw))))).take 2 ∧
    List.Pairwise (fun a b => a.length ≤ b.length)
      (smart_keyword_selection ["Python", "AWS", "Kubernetes"] "Improved latency" 2) := by
  have h := (smart_keyword_selection_spec ["Python", "AWS", "Kubernetes"]
    "Improved latency" 2).2.2 (by decide)
  exact ⟨h.1, h.2.2.2⟩

end ResuForge
